import Mathlib

/-!
Shallow embedding of the data-integrity / audit-logging core of the
box-storage-inventory application (modules/app.py, modules/tabs_boxes.py,
modules/tabs_items.py, modules/dialogs.py), and proofs about it.

The sqlite store is a record of lists (rows in insertion order, which is the
scan order of an unordered SELECT on these append-only-id tables); each GUI
handler becomes a function from the store to the store plus an outcome.
-/

namespace BoxInv

/-- A row of the `boxes` table:
`id INTEGER PRIMARY KEY AUTOINCREMENT, name TEXT NOT NULL, location TEXT`
(`location` is nullable: the column was added by the migration). -/
structure Box where
  id : Nat
  name : String
  location : Option String
deriving Repr, DecidableEq

/-- A row of the `items` table:
`id, name TEXT NOT NULL, box_id INTEGER (FK boxes.id ON DELETE CASCADE, nullable),
quantity INTEGER DEFAULT 1 CHECK(quantity > 0)`. -/
structure Item where
  id : Nat
  name : String
  boxId : Option Nat
  quantity : Int
deriving Repr, DecidableEq

/-- A row of the `audit_logs` table. The wall-clock `timestamp` column is omitted:
the embedding has no clock and no claim depends on it. -/
structure AuditEntry where
  action : String
  entityType : String
  entityId : Option Nat
  entityName : Option String
  details : Option String
  oldValue : Option String
  newValue : Option String
deriving Repr, DecidableEq

/-- The persistent store: the three data tables plus the AUTOINCREMENT counters. -/
structure DB where
  boxes : List Box
  items : List Item
  logs : List AuditEntry
  nextBoxId : Nat
  nextItemId : Nat
deriving Repr, DecidableEq

/-- The store right after `InventoryApp.setup_database` on a fresh file. -/
def initialDB : DB := ⟨[], [], [], 1, 1⟩

/-- Outcome of one GUI handler run. -/
inductive OpResult
  | ok
  | validationError   -- a dialog early-return: no SQL was executed
  | storageError      -- sqlite3.Error caught by the handler: rollback, no audit entry
  | uncaughtError     -- a non-sqlite exception after the commit (fetchone() is None)
  | formatError       -- CSV header check failed: import aborted before any row
  | refusedErrors     -- import preview had validation errors: no Import button exists
  | cancelled         -- user rejected the import preview dialog
  | noData            -- empty CSV: "No data found in CSV file"
deriving Repr, DecidableEq

/-- `InventoryApp.log_action` (app.py lines 224-274): one
`INSERT INTO audit_logs` followed by `conn.commit()`. The best-effort mirror line
written to the daily log file is pure output and is not part of the store. -/
def log_action (db : DB) (action entityType : String) (entityId : Option Nat)
    (entityName details oldValue newValue : Option String) : DB :=
  { db with logs :=
      db.logs ++ [⟨action, entityType, entityId, entityName, details, oldValue, newValue⟩] }

/-- Drop leading whitespace characters. -/
def dropWhitespace : List Char → List Char
  | [] => []
  | c :: cs => if c.isWhitespace then dropWhitespace cs else c :: cs

/-- Python `str.strip()` with no argument: remove whitespace from both ends. -/
def pyStrip (s : String) : String :=
  ⟨((dropWhitespace ((dropWhitespace s.data).reverse)).reverse)⟩

/-- Python `str.lower()` (on the ASCII range the import paths use). -/
def pyLower (s : String) : String := ⟨s.data.map Char.toLower⟩

/-- `EditBoxDialog.save` (dialogs.py lines 350-375): strip both fields; reject an
empty name, a name over 255 chars, and a non-empty location over 255 chars.
On success the dialog result is the stripped pair (an empty location stays `""`). -/
def boxDialogSave (nameRaw locationRaw : String) : Option (String × String) :=
  let name := pyStrip nameRaw
  if name = "" then none
  else if name.length > 255 then none
  else
    let location := pyStrip locationRaw
    if location ≠ "" ∧ location.length > 255 then none
    else some (name, location)

/-- `BoxesTab.add_box` (tabs_boxes.py lines 178-204): dialog validation,
`INSERT INTO boxes (name, location)`, `conn.commit()`, then
`log_action("CREATE", "BOX", …)`. -/
def add_box (db : DB) (nameRaw locationRaw : String) : DB × OpResult :=
  match boxDialogSave nameRaw locationRaw with
  | none => (db, .validationError)
  | some (name, location) =>
    let boxId := db.nextBoxId
    let db1 : DB := { db with
      boxes := db.boxes ++ [⟨boxId, name, some location⟩], nextBoxId := boxId + 1 }
    let details := if location ≠ "" then "Created new box at location: " ++ location
                   else "Created new box"
    (log_action db1 "CREATE" "BOX" (some boxId) (some name) (some details) none none, .ok)

/-- Python `x or 'None'` on a nullable string: both `NULL` and `""` are falsy and
render as `"None"`. -/
def orNoneStr : Option String → String
  | none => "None"
  | some s => if s = "" then "None" else s

/-- A Python f-string interpolation of a nullable string: `None` prints as `"None"`,
any other string prints as itself. -/
def pyOptStr : Option String → String
  | none => "None"
  | some s => s

/-- A Python f-string / `str(…)` rendering of a nullable integer. -/
def pyOptNat : Option Nat → String
  | none => "None"
  | some n => toString n

/-- The `changes` list of `BoxesTab.edit_box` (tabs_boxes.py lines 222-226): one clause
per changed field. The location comparison is Pythonic: `None != ""` holds, and both
display as `'None'`. -/
def boxChanges (oldName : String) (oldLocation : Option String)
    (newName newLocation : String) : List String :=
  (if oldName ≠ newName
    then ["name: '" ++ oldName ++ "' → '" ++ newName ++ "'"] else [])
  ++ (if oldLocation ≠ some newLocation
    then ["location: '" ++ orNoneStr oldLocation ++ "' → '" ++ orNoneStr (some newLocation) ++ "'"]
    else [])

/-- `BoxesTab.edit_box` (tabs_boxes.py lines 206-243): dialog validation,
`UPDATE boxes SET name = ?, location = ? WHERE id = ?` (an absent id updates zero rows
and raises nothing), `conn.commit()`, then the diff details and
`log_action("UPDATE", "BOX", …)`. `oldName`/`oldLocation` are the values the table row
held, handed to the handler by `load_boxes`. -/
def edit_box (db : DB) (boxId : Nat) (oldName : String) (oldLocation : Option String)
    (newNameRaw newLocationRaw : String) : DB × OpResult :=
  match boxDialogSave newNameRaw newLocationRaw with
  | none => (db, .validationError)
  | some (newName, newLocation) =>
    let db1 : DB := { db with boxes := db.boxes.map (fun b =>
      if b.id = boxId then { b with name := newName, location := some newLocation } else b) }
    let changes := boxChanges oldName oldLocation newName newLocation
    let details := if changes.isEmpty then "No changes" else String.intercalate ", " changes
    (log_action db1 "UPDATE" "BOX" (some boxId) (some newName) (some details)
      (some ("name: " ++ oldName ++ ", location: " ++ pyOptStr oldLocation))
      (some ("name: " ++ newName ++ ", location: " ++ newLocation)), .ok)

/-- `BoxesTab.delete_box` (tabs_boxes.py lines 245-281), after the user confirms:
SELECT the name (`"Unknown"` when the id is absent), COUNT the box's items,
`DELETE FROM boxes WHERE id = ?` — with `PRAGMA foreign_keys = ON` the
`ON DELETE CASCADE` clause deletes the deleted box's items in the same statement;
deleting zero boxes cascades to zero items — `conn.commit()`, then
`log_action("DELETE", "BOX", …)`. There is no not-found check. -/
def delete_box (db : DB) (boxId : Nat) : DB × OpResult :=
  let boxName := match db.boxes.find? (fun b => b.id == boxId) with
                 | some b => b.name
                 | none => "Unknown"
  let itemCount := (db.items.filter (fun i => i.boxId == some boxId)).length
  let db1 : DB := { db with
    boxes := db.boxes.filter (fun b => ¬ b.id = boxId),
    items := if db.boxes.any (fun b => b.id == boxId)
             then db.items.filter (fun i => ¬ i.boxId = some boxId) else db.items }
  (log_action db1 "DELETE" "BOX" (some boxId) (some boxName)
    (some ("Deleted box with " ++ toString itemCount ++ " items")) none none, .ok)

/-- `EditItemDialog.save` (dialogs.py lines 123-152): the four early-return checks in
source order — stripped name empty; `not box_id` (no selection, or a falsy id 0);
quantity below 1; name over 255 chars. On success the dialog result is the stripped
name with the chosen box id and quantity. -/
def itemDialogSave (nameRaw : String) (boxIdSel : Option Nat) (quantity : Int) :
    Option (String × Nat × Int) :=
  let name := pyStrip nameRaw
  if name = "" then none
  else match boxIdSel with
  | none => none
  | some boxId =>
    if boxId = 0 then none
    else if quantity < 1 then none
    else if name.length > 255 then none
    else some (name, boxId, quantity)

/-- `ItemsTab.add_item` (tabs_items.py lines 213-250): bail out when no box exists
(the filter combo holds only "All Boxes"); dialog validation;
`INSERT INTO items (name, box_id, quantity)` — a nonexistent box id violates the
enabled foreign key, the `sqlite3.Error` is caught and rolled back with no audit
entry — `conn.commit()`, the box-name lookup, then `log_action("CREATE", "ITEM", …)`. -/
def add_item (db : DB) (nameRaw : String) (boxIdSel : Option Nat) (quantity : Int) :
    DB × OpResult :=
  if db.boxes.isEmpty then (db, .validationError)
  else match itemDialogSave nameRaw boxIdSel quantity with
  | none => (db, .validationError)
  | some (name, boxId, q) =>
    match db.boxes.find? (fun b => b.id == boxId) with
    | none => (db, .storageError)
    | some box =>
      let itemId := db.nextItemId
      let db1 : DB := { db with
        items := db.items ++ [⟨itemId, name, some boxId, q⟩], nextItemId := itemId + 1 }
      (log_action db1 "CREATE" "ITEM" (some itemId) (some name)
        (some ("Added " ++ toString q ++ " units to box '" ++ box.name ++ "'"))
        none none, .ok)

/-- `ItemsTab.edit_item` (tabs_items.py lines 252-297): dialog validation;
`UPDATE items SET name = ?, box_id = ?, quantity = ? WHERE id = ?` — when the item row
exists and the new box id does not, the enabled foreign key raises `sqlite3.Error`,
caught and rolled back with no audit entry; when the item row does not exist the update
touches zero rows and raises nothing — `conn.commit()`; then
`SELECT name FROM boxes WHERE id = new_box_id` (`fetchone()[0]` on a missing box is a
`TypeError` the handler does not catch: the commit stays, no entry is written); the diff
clauses (the old box's name is looked up only when the box changed, with the same
`fetchone()[0]` hazard); and `log_action("UPDATE", "ITEM", …)`. The old values are the
ones the table row held. -/
def edit_item (db : DB) (itemId : Nat) (oldName : String) (oldQuantity : Int)
    (oldBoxId : Option Nat) (newNameRaw : String) (newBoxIdSel : Option Nat)
    (newQuantity : Int) : DB × OpResult :=
  match itemDialogSave newNameRaw newBoxIdSel newQuantity with
  | none => (db, .validationError)
  | some (newName, newBoxId, newQty) =>
    match db.boxes.find? (fun b => b.id == newBoxId) with
    | none =>
      if db.items.any (fun i => i.id == itemId) then (db, .storageError)
      else (db, .uncaughtError)
    | some newBox =>
      let db1 : DB := { db with items := db.items.map (fun i =>
        if i.id = itemId
        then { i with name := newName, boxId := some newBoxId, quantity := newQty }
        else i) }
      let logIt := fun (changes : List String) =>
        (log_action db1 "UPDATE" "ITEM" (some itemId) (some newName)
          (some (if changes.isEmpty then "No changes" else String.intercalate ", " changes))
          (some ("\x7b'name': '" ++ oldName ++ "', 'quantity': " ++ toString oldQuantity
            ++ ", 'box_id': " ++ pyOptNat oldBoxId ++ "\x7d"))
          (some ("\x7b'name': '" ++ newName ++ "', 'quantity': " ++ toString newQty
            ++ ", 'box_id': " ++ toString newBoxId ++ "\x7d")), OpResult.ok)
      let nameClause := if oldName ≠ newName
        then ["name: '" ++ oldName ++ "' → '" ++ newName ++ "'"] else []
      let qtyClause := if oldQuantity ≠ newQty
        then ["quantity: " ++ toString oldQuantity ++ " → " ++ toString newQty] else []
      if oldBoxId ≠ some newBoxId then
        match db.boxes.find? (fun b => oldBoxId == some b.id) with
        | none => (db1, .uncaughtError)
        | some oldBox =>
          logIt (nameClause ++ qtyClause
            ++ ["box: '" ++ oldBox.name ++ "' → '" ++ newBox.name ++ "'"])
      else logIt (nameClause ++ qtyClause)

/-- `ItemsTab.delete_item` (tabs_items.py lines 299-337), after the user confirms:
the LEFT JOIN snapshot — defaults `("Unknown", 0, "Unknown")` when the item is absent;
an unresolved joined box name is `NULL` and prints as `"None"` —
`DELETE FROM items WHERE id = ?`, `conn.commit()`, then
`log_action("DELETE", "ITEM", …)`. There is no not-found check. -/
def delete_item (db : DB) (itemId : Nat) : DB × OpResult :=
  let snap : String × Int × String :=
    match db.items.find? (fun i => i.id == itemId) with
    | some i =>
      (i.name, i.quantity,
        pyOptStr ((i.boxId.bind (fun bid => db.boxes.find? (fun b => b.id == bid))).map Box.name))
    | none => ("Unknown", 0, "Unknown")
  let db1 : DB := { db with items := db.items.filter (fun i => ¬ i.id = itemId) }
  (log_action db1 "DELETE" "ITEM" (some itemId) (some snap.1)
    (some ("Deleted " ++ toString snap.2.1 ++ " units from box '" ++ snap.2.2 ++ "'"))
    none none, .ok)

/-! ### CSV import pipeline (`InventoryApp.import_from_csv`, app.py lines 567-709) -/

/-- One CSV data row's values under the three required headers "Item Name", "Box",
"Quantity". Values under additional headers never reach the code's row handling. -/
structure CsvRow where
  itemName : String
  box : String
  quantity : String
deriving Repr, DecidableEq

/-- One entry of the `import_data` preview list (app.py lines 641-650). -/
structure ImportRow where
  row : Nat
  name : String
  boxName : String
  boxId : Option Nat
  quantity : Int
  error : Bool
deriving Repr, DecidableEq

/-- Value of a nonempty all-digit run, `none` otherwise. -/
def decDigits? : List Char → Option Nat
  | [] => none
  | cs => cs.foldlM (fun acc c => if c.isDigit then some (acc * 10 + (c.toNat - 48)) else none) 0

/-- Python `int(s)` on the already-stripped quantity string, over the optional-sign
decimal forms: `none` is the `ValueError` branch. -/
def pyInt? (s : String) : Option Int :=
  match s.data with
  | '-' :: cs => (decDigits? cs).map (fun n => -(n : Int))
  | '+' :: cs => (decDigits? cs).map (fun n => (n : Int))
  | cs => (decDigits? cs).map (fun n => (n : Int))

/-- The `existing_boxes` dict comprehension (app.py lines 582-585),
`{name.lower(): box_id for box_id, name in SELECT id, name FROM boxes}`, read back at
`key`: a duplicate lowercased name keeps its LAST binding in the scan order. -/
def existing_boxes_get (boxes : List Box) (key : String) : Option Nat :=
  boxes.foldl (fun acc b => if pyLower b.name = key then some b.id else acc) none

/-- The required header names (app.py line 591), exact and case-sensitive. -/
def requiredHeaders : List String := ["Item Name", "Box", "Quantity"]

/-- `all(header in reader.fieldnames for header in required_headers)` (app.py line 592):
extra columns are irrelevant. -/
def headersOk (fieldnames : List String) : Bool :=
  requiredHeaders.all (fun h => fieldnames.contains h)

/-- The loop body of app.py lines 601-650 for the data row numbered `rowNum`
(`enumerate(reader, start=2)`: the header is row 1). Returns the preview record
and this row's error messages in emission order. -/
def validateRow (boxes : List Box) (rowNum : Nat) (r : CsvRow) : ImportRow × List String :=
  let itemName := pyStrip r.itemName
  let boxName := pyStrip r.box
  let quantityStr := pyStrip r.quantity
  let nameErrs := if itemName = ""
    then ["Row " ++ toString rowNum ++ ": Item name is empty"] else []
  let boxErrs :=
    if boxName = "" then ["Row " ++ toString rowNum ++ ": Box name is empty"]
    else if existing_boxes_get boxes (pyLower boxName) = none then
      ["Row " ++ toString rowNum ++ ": Box '" ++ boxName ++ "' does not exist. Create it first."]
    else []
  let qtyPair : Int × List String :=
    match pyInt? quantityStr with
    | some q =>
      if q < 1 then (q, ["Row " ++ toString rowNum ++ ": Quantity must be at least 1"])
      else (q, [])
    | none =>
      (0, ["Row " ++ toString rowNum ++ ": Invalid quantity '" ++ quantityStr
            ++ "' (must be a number)"])
  let errs := nameErrs ++ boxErrs ++ qtyPair.2
  (⟨rowNum, itemName, boxName, existing_boxes_get boxes (pyLower boxName), qtyPair.1,
    !errs.isEmpty⟩, errs)

/-- The validation loop from row number `rowNum` on: the preview list and the
aggregated `validation_errors`. -/
def validateRows (boxes : List Box) (rowNum : Nat) : List CsvRow → List ImportRow × List String
  | [] => ([], [])
  | r :: rs =>
    let p := validateRow boxes rowNum r
    let q := validateRows boxes (rowNum + 1) rs
    (p.1 :: q.1, p.2 ++ q.2)

/-- The whole validation pass of one CSV file against the current store
(first data row is row 2). -/
def validateImport (db : DB) (rows : List CsvRow) : List ImportRow × List String :=
  validateRows db.boxes 2 rows

/-- The commit loop (app.py lines 663-676): every row without the error flag gets a plain
`INSERT INTO items (name, box_id, quantity)`; rows with the flag are skipped. Returns the
store and `success_count`. In the embedding no insert can raise (a flag-free row's box id
exists and its quantity is positive), so `failed_count` stays 0. -/
def commitRows (db : DB) : List ImportRow → DB × Nat
  | [] => (db, 0)
  | r :: rs =>
    if r.error then commitRows db rs
    else
      let db1 : DB := { db with
        items := db.items ++ [⟨db.nextItemId, r.name, r.boxId, r.quantity⟩],
        nextItemId := db.nextItemId + 1 }
      let p := commitRows db1 rs
      (p.1, p.2 + 1)

/-- `InventoryApp.import_from_csv` end to end: build `existing_boxes`, check the header
(failure aborts before any row), validate every data row, bail out on an empty file, show
the preview — `ImportPreviewDialog.setup_ui` (dialogs.py lines 258-277) only creates an
Import button when `validation_errors` is empty, so the dialog is Accepted exactly when
there are zero errors and the user clicks Import — then run the commit loop, one final
`conn.commit()`, and the single `log_action("IMPORT", "INVENTORY", …)` summary entry. -/
def import_from_csv (db : DB) (fieldnames : List String) (rows : List CsvRow)
    (userClicksImport : Bool) : DB × OpResult :=
  if ¬ headersOk fieldnames then (db, .formatError)
  else if (validateImport db rows).1.isEmpty then (db, .noData)
  else if ¬ (validateImport db rows).2.isEmpty then (db, .refusedErrors)
  else if ¬ userClicksImport then (db, .cancelled)
  else
    (log_action (commitRows db (validateImport db rows).1).1 "IMPORT" "INVENTORY" none none
      (some ("Imported " ++ toString (commitRows db (validateImport db rows).1).2
        ++ " items from CSV (" ++ toString (0 : Nat) ++ " failed)")) none none, .ok)

/-! ### Operation catalogue, invariants, and the queries the claims read -/

/-- One run of one mutating GUI handler, with the inputs the user supplied. -/
inductive Op
  | addBox (nameRaw locationRaw : String)
  | editBox (boxId : Nat) (oldName : String) (oldLocation : Option String)
      (newNameRaw newLocationRaw : String)
  | delBox (boxId : Nat)
  | addItem (nameRaw : String) (boxIdSel : Option Nat) (quantity : Int)
  | editItem (itemId : Nat) (oldName : String) (oldQuantity : Int) (oldBoxId : Option Nat)
      (newNameRaw : String) (newBoxIdSel : Option Nat) (newQuantity : Int)
  | delItem (itemId : Nat)
  | csvImport (fieldnames : List String) (rows : List CsvRow) (userClicksImport : Bool)
deriving Repr

/-- Run one handler. -/
def applyR (db : DB) : Op → DB × OpResult
  | .addBox n l => add_box db n l
  | .editBox bid onm ol n l => edit_box db bid onm ol n l
  | .delBox bid => delete_box db bid
  | .addItem n b q => add_item db n b q
  | .editItem i onm oq ob n b q => edit_item db i onm oq ob n b q
  | .delItem i => delete_item db i
  | .csvImport f r u => import_from_csv db f r u

/-- The store a handler run leaves behind. -/
def applyOp (db : DB) (op : Op) : DB := (applyR db op).1

/-- Run a sequence of handlers. -/
def run (db : DB) (ops : List Op) : DB := ops.foldl applyOp db

/-- The `action` column every entry of this operation's audit log carries. -/
def opAction : Op → String
  | .addBox .. => "CREATE"
  | .editBox .. => "UPDATE"
  | .delBox .. => "DELETE"
  | .addItem .. => "CREATE"
  | .editItem .. => "UPDATE"
  | .delItem .. => "DELETE"
  | .csvImport .. => "IMPORT"

/-- The `entity_type` column of this operation's audit entry. -/
def opEntityType : Op → String
  | .addBox .. | .editBox .. | .delBox .. => "BOX"
  | .addItem .. | .editItem .. | .delItem .. => "ITEM"
  | .csvImport .. => "INVENTORY"

/-- One item's referential health: its `box_id` is set and names a stored box. -/
def itemBoxOk (boxes : List Box) (i : Item) : Bool :=
  match i.boxId with
  | some bid => boxes.any (fun b => b.id == bid)
  | none => false

/-- P1: every stored item's `box_id` resolves to a currently existing box. -/
def refIntegrity (db : DB) : Bool := db.items.all (itemBoxOk db.boxes)

/-- P3: no stored item has quantity below 1. -/
def qtyFloor (db : DB) : Bool := db.items.all (fun i => decide (1 ≤ i.quantity))

/-- `ItemsTab.load_items` with empty search text and the "All Boxes" filter
(tabs_items.py lines 102-128): `SELECT … FROM items LEFT JOIN boxes ON
items.box_id = boxes.id ORDER BY items.id` — each stored item with its resolved box name
(`none` when unresolved; the UI then shows "N/A"). The two optional WHERE filters are off
in every use the claims make. -/
def load_items (db : DB) : List (Item × Option String) :=
  (db.items.mergeSort (fun a b => a.id ≤ b.id)).map
    (fun i => (i, (i.boxId.bind (fun bid => db.boxes.find? (fun b => b.id == bid))).map Box.name))

/-! ### The connection at the SQL-step level (for the atomicity claim) -/

/-- The sqlite connection: `committed` is the durable store, `pending` the state the
cursor's statements have built; `execute` edits `pending`, `conn.commit()` publishes it,
`conn.rollback()` discards it. -/
structure Conn where
  committed : DB
  pending : DB
deriving Repr, DecidableEq

/-- `BoxesTab.add_box` after the dialog is accepted, replayed statement by statement with
an injectable failure of the audit-log INSERT:
`INSERT INTO boxes` (line 184); `conn.commit()` (line 188); then `log_action`
(`INSERT INTO audit_logs`, `conn.commit()`). When the audit INSERT raises
`sqlite3.Error`, the handler's `except` block (lines 202-204) runs `conn.rollback()` —
which discards only the uncommitted audit insert: the box INSERT was already committed
on line 188 and stays. -/
def add_box_steps (c : Conn) (name location : String) (auditInsertFails : Bool) : Conn :=
  let boxId := c.pending.nextBoxId
  let p1 : DB := { c.pending with
    boxes := c.pending.boxes ++ [⟨boxId, name, some location⟩], nextBoxId := boxId + 1 }
  let c1 : Conn := ⟨p1, p1⟩
  if auditInsertFails then ⟨c1.committed, c1.committed⟩
  else
    let details := if location ≠ "" then "Created new box at location: " ++ location
                   else "Created new box"
    let p2 := log_action c1.pending "CREATE" "BOX" (some boxId) (some name)
      (some details) none none
    ⟨p2, p2⟩

/-! ### Helper lemmas -/

theorem log_action_logs (db : DB) (a t : String) (i : Option Nat)
    (n d o v : Option String) :
    (log_action db a t i n d o v).logs = db.logs ++ [⟨a, t, i, n, d, o, v⟩] := rfl

theorem itemBoxOk_iff (boxes : List Box) (i : Item) :
    itemBoxOk boxes i = true ↔ ∃ bid, i.boxId = some bid ∧ ∃ b ∈ boxes, b.id = bid := by
  cases h : i.boxId with
  | none => simp [itemBoxOk, h]
  | some bid =>
    simp only [itemBoxOk, h, List.any_eq_true, beq_iff_eq, Option.some.injEq]
    constructor
    · rintro ⟨b, hb, hid⟩
      exact ⟨bid, rfl, b, hb, hid⟩
    · rintro ⟨bid', rfl, b, hb, hid⟩
      exact ⟨b, hb, hid⟩

theorem refIntegrity_iff (db : DB) :
    refIntegrity db = true ↔
      ∀ i ∈ db.items, ∃ bid, i.boxId = some bid ∧ ∃ b ∈ db.boxes, b.id = bid := by
  simp [refIntegrity, List.all_eq_true, itemBoxOk_iff]

theorem qtyFloor_iff (db : DB) :
    qtyFloor db = true ↔ ∀ i ∈ db.items, 1 ≤ i.quantity := by
  simp [qtyFloor, List.all_eq_true]

/-- A dialog-accepted item carries the supplied quantity, which passed the `< 1` check. -/
theorem itemDialogSave_some (nameRaw : String) (boxIdSel : Option Nat) (quantity : Int)
    (nm : String) (bid : Nat) (q : Int)
    (h : itemDialogSave nameRaw boxIdSel quantity = some (nm, bid, q)) :
    q = quantity ∧ 1 ≤ q ∧ boxIdSel = some bid := by
  cases boxIdSel with
  | none => simp [itemDialogSave] at h
  | some b =>
    simp only [itemDialogSave] at h
    split_ifs at h with h1 h2 h3 h4 <;> simp_all

/-- A quantity below 1 never passes `EditItemDialog.save`. -/
theorem itemDialogSave_eq_none (nameRaw : String) (boxIdSel : Option Nat) (quantity : Int)
    (hq : quantity < 1) : itemDialogSave nameRaw boxIdSel quantity = none := by
  cases boxIdSel with
  | none => simp [itemDialogSave]
  | some b =>
    simp only [itemDialogSave]
    split_ifs with h1 h2 h3 h4 <;> first | rfl | omega

theorem existing_boxes_get_eq_getLast (boxes : List Box) (key : String) :
    existing_boxes_get boxes key =
      ((boxes.filter (fun b => pyLower b.name == key)).getLast?).map Box.id := by
  induction boxes using List.reverseRecOn with
  | nil => rfl
  | append_singleton l b ih =>
    by_cases hb : pyLower b.name = key
    · simp [existing_boxes_get, List.foldl_append, List.filter_append, hb,
        List.getLast?_concat]
    · have hstep : existing_boxes_get (l ++ [b]) key = existing_boxes_get l key := by
        simp [existing_boxes_get, List.foldl_append, hb]
      rw [hstep, ih, List.filter_append]
      simp [hb]

theorem existing_boxes_get_mem (boxes : List Box) (key : String) (bid : Nat)
    (h : existing_boxes_get boxes key = some bid) : ∃ b ∈ boxes, b.id = bid := by
  rw [existing_boxes_get_eq_getLast] at h
  cases hl : (boxes.filter (fun b => pyLower b.name == key)).getLast? with
  | none => rw [hl] at h; simp at h
  | some b0 =>
    rw [hl] at h
    simp at h
    have hmem : b0 ∈ boxes.filter (fun b => pyLower b.name == key) := by
      obtain ⟨hne, heq⟩ := List.mem_getLast?_eq_getLast (Option.mem_def.mpr hl)
      exact heq ▸ List.getLast_mem hne
    exact ⟨b0, (List.mem_filter.mp hmem).1, h⟩

theorem commitRows_boxes (db : DB) (irs : List ImportRow) :
    (commitRows db irs).1.boxes = db.boxes := by
  induction irs generalizing db with
  | nil => rfl
  | cons r rs ih =>
    simp only [commitRows]
    split
    · exact ih db
    · exact ih _

theorem commitRows_logs (db : DB) (irs : List ImportRow) :
    (commitRows db irs).1.logs = db.logs := by
  induction irs generalizing db with
  | nil => rfl
  | cons r rs ih =>
    simp only [commitRows]
    split
    · exact ih db
    · exact ih _

theorem commitRows_refIntegrity (db : DB) (irs : List ImportRow)
    (h : refIntegrity db = true)
    (hr : ∀ r ∈ irs, r.error = false →
      ∃ bid, r.boxId = some bid ∧ ∃ b ∈ db.boxes, b.id = bid) :
    refIntegrity (commitRows db irs).1 = true := by
  induction irs generalizing db with
  | nil => exact h
  | cons r rs ih =>
    simp only [commitRows]
    split
    · exact ih db h (fun x hx he => hr x (by simp [hx]) he)
    · rename_i herr
      apply ih
      · rw [refIntegrity_iff] at h ⊢
        intro i hi
        simp only [List.mem_append, List.mem_singleton] at hi
        rcases hi with hi | rfl
        · exact h i hi
        · simpa using hr r (by simp) (by simpa using herr)
      · intro x hx he
        exact hr x (by simp [hx]) he

theorem commitRows_qtyFloor (db : DB) (irs : List ImportRow)
    (h : qtyFloor db = true)
    (hr : ∀ r ∈ irs, r.error = false → 1 ≤ r.quantity) :
    qtyFloor (commitRows db irs).1 = true := by
  induction irs generalizing db with
  | nil => exact h
  | cons r rs ih =>
    simp only [commitRows]
    split
    · exact ih db h (fun x hx he => hr x (by simp [hx]) he)
    · rename_i herr
      apply ih
      · rw [qtyFloor_iff] at h ⊢
        intro i hi
        simp only [List.mem_append, List.mem_singleton] at hi
        rcases hi with hi | rfl
        · exact h i hi
        · simpa using hr r (by simp) (by simpa using herr)
      · intro x hx he
        exact hr x (by simp [hx]) he

theorem commitRows_all_ok (db : DB) (irs : List ImportRow)
    (hr : ∀ r ∈ irs, r.error = false) :
    (commitRows db irs).1.items.length = db.items.length + irs.length ∧
    (commitRows db irs).2 = irs.length := by
  induction irs generalizing db with
  | nil => simp [commitRows]
  | cons r rs ih =>
    simp only [commitRows]
    split
    · rename_i he
      exact absurd (hr r (by simp)) (by simp [he])
    · have := ih { db with
        items := db.items ++ [⟨db.nextItemId, r.name, r.boxId, r.quantity⟩],
        nextItemId := db.nextItemId + 1 } (fun x hx => hr x (by simp [hx]))
      simp only [List.length_append, List.length_singleton] at this
      simp only [List.length_cons]
      exact ⟨by rw [this.1]; omega, by rw [this.2]⟩

theorem validateRow_error_eq (boxes : List Box) (n : Nat) (r : CsvRow) :
    (validateRow boxes n r).1.error = !((validateRow boxes n r).2).isEmpty := rfl

theorem validateRow_noerror (boxes : List Box) (n : Nat) (r : CsvRow)
    (h : (validateRow boxes n r).1.error = false) :
    1 ≤ (validateRow boxes n r).1.quantity ∧
    ∃ bid, (validateRow boxes n r).1.boxId = some bid ∧ ∃ b ∈ boxes, b.id = bid := by
  have h2 : (validateRow boxes n r).2 = [] := by
    have he := validateRow_error_eq boxes n r
    rw [h] at he
    exact List.isEmpty_iff.mp (by simpa using he.symm)
  constructor
  · cases hpq : pyInt? (pyStrip r.quantity) with
    | none => exfalso; simp [validateRow, hpq] at h2
    | some q =>
      by_cases hlt : q < 1
      · exfalso; simp [validateRow, hpq, hlt] at h2
      · simp only [validateRow, hpq]
        simp [hlt]
        omega
  · by_cases hempty : pyStrip r.box = ""
    · exfalso; simp [validateRow, hempty] at h2
    · cases hget : existing_boxes_get boxes (pyLower (pyStrip r.box)) with
      | none => exfalso; simp [validateRow, hempty, hget] at h2
      | some bid =>
        refine ⟨bid, ?_, existing_boxes_get_mem _ _ _ hget⟩
        simp [validateRow, hget]

theorem validateRows_length (boxes : List Box) (rows : List CsvRow) (n : Nat) :
    (validateRows boxes n rows).1.length = rows.length := by
  induction rows generalizing n with
  | nil => rfl
  | cons r rs ih => simp [validateRows, ih]

theorem validateRows_mem (boxes : List Box) (rows : List CsvRow) (n : Nat)
    (ir : ImportRow) (h : ir ∈ (validateRows boxes n rows).1) :
    ∃ m r, r ∈ rows ∧ ir = (validateRow boxes m r).1 := by
  induction rows generalizing n with
  | nil => simp [validateRows] at h
  | cons r rs ih =>
    simp only [validateRows, List.mem_cons] at h
    rcases h with rfl | h
    · exact ⟨n, r, by simp⟩
    · obtain ⟨m, r', hr', heq⟩ := ih (n + 1) h
      exact ⟨m, r', by simp [hr'], heq⟩

theorem validateRows_errors_nil (boxes : List Box) (rows : List CsvRow) (n : Nat)
    (h : (validateRows boxes n rows).2 = []) :
    ∀ ir ∈ (validateRows boxes n rows).1, ir.error = false := by
  induction rows generalizing n with
  | nil => simp [validateRows]
  | cons r rs ih =>
    simp only [validateRows] at h ⊢
    rcases List.append_eq_nil.mp h with ⟨h1, h2⟩
    intro ir hir
    rcases List.mem_cons.mp hir with rfl | hir
    · rw [validateRow_error_eq, h1]
      rfl
    · exact ih (n + 1) h2 ir hir

/-- Every handler keeps P1: stored items only ever reference stored boxes. -/
theorem preserve_refIntegrity (db : DB) (op : Op) (h : refIntegrity db = true) :
    refIntegrity (applyOp db op) = true := by
  cases op with
  | addBox n l =>
    cases hb : boxDialogSave n l with
    | none => simpa only [applyOp, applyR, add_box, hb] using h
    | some p =>
      obtain ⟨nm, loc⟩ := p
      simp only [applyOp, applyR, add_box, hb]
      rw [refIntegrity_iff] at h ⊢
      intro i hi
      obtain ⟨bid, hbid, b, hbm, hid⟩ := h i hi
      exact ⟨bid, hbid, b, List.mem_append_left _ hbm, hid⟩
  | editBox bid0 onm ol nn nl =>
    cases hb : boxDialogSave nn nl with
    | none => simpa only [applyOp, applyR, edit_box, hb] using h
    | some p =>
      obtain ⟨nm, loc⟩ := p
      simp only [applyOp, applyR, edit_box, hb]
      rw [refIntegrity_iff] at h ⊢
      intro i hi
      obtain ⟨bid, hbid, b, hbm, hid⟩ := h i hi
      refine ⟨bid, hbid,
        (if b.id = bid0 then { b with name := nm, location := some loc } else b),
        List.mem_map_of_mem _ hbm, ?_⟩
      split <;> simpa using hid
  | delBox bid0 =>
    simp only [applyOp, applyR, delete_box]
    rw [refIntegrity_iff] at h ⊢
    intro i hi
    by_cases hex : db.boxes.any (fun b => b.id == bid0) = true
    · simp only [hex, if_true] at hi
      obtain ⟨him, hflag⟩ := List.mem_filter.mp hi
      obtain ⟨bid, hbid, b, hbm, hid⟩ := h i him
      have hne : bid ≠ bid0 := by
        intro hcontra
        rw [hbid, hcontra] at hflag
        simp at hflag
      exact ⟨bid, hbid, b, List.mem_filter.mpr ⟨hbm, by simp [hid, hne]⟩, hid⟩
    · simp only [hex, if_false, Bool.false_eq_true] at hi
      obtain ⟨bid, hbid, b, hbm, hid⟩ := h i hi
      have hne : b.id ≠ bid0 := by
        intro hcontra
        exact hex (List.any_eq_true.mpr ⟨b, hbm, by simp [hcontra]⟩)
      exact ⟨bid, hbid, b, List.mem_filter.mpr ⟨hbm, by simp [hne]⟩, hid⟩
  | addItem n bsel q =>
    simp only [applyOp, applyR, add_item]
    split
    · exact h
    · cases hs : itemDialogSave n bsel q with
      | none => simp only [hs]; exact h
      | some p =>
        obtain ⟨nm, bid, qq⟩ := p
        cases hf : db.boxes.find? (fun b => b.id == bid) with
        | none => simp only [hs, hf]; exact h
        | some box =>
          simp only [hs, hf]
          rw [refIntegrity_iff] at h ⊢
          intro i hi
          simp only [log_action, List.mem_append, List.mem_singleton] at hi
          rcases hi with hi | rfl
          · exact h i hi
          · exact ⟨bid, rfl, box, List.mem_of_find?_eq_some hf,
              by simpa using List.find?_some hf⟩
  | editItem iid onm oq ob nn bsel q =>
    cases hs : itemDialogSave nn bsel q with
    | none => simpa only [applyOp, applyR, edit_item, hs] using h
    | some p =>
      obtain ⟨nm, bid, qq⟩ := p
      cases hf : db.boxes.find? (fun b => b.id == bid) with
      | none =>
        simp only [applyOp, applyR, edit_item, hs, hf]
        split <;> exact h
      | some nb =>
        have key : refIntegrity { db with items := db.items.map (fun i =>
            if i.id = iid
            then { i with name := nm, boxId := some bid, quantity := qq }
            else i) } = true := by
          rw [refIntegrity_iff] at h ⊢
          intro i hi
          simp only [List.mem_map] at hi
          obtain ⟨j, hj, rfl⟩ := hi
          by_cases hij : j.id = iid
          · simp only [if_pos hij]
            exact ⟨bid, rfl, nb, List.mem_of_find?_eq_some hf,
              by simpa using List.find?_some hf⟩
          · simp only [if_neg hij]
            exact h j hj
        simp only [applyOp, applyR, edit_item, hs, hf]
        split
        · split
          · exact key
          · exact key
        · exact key
  | delItem iid =>
    simp only [applyOp, applyR, delete_item]
    rw [refIntegrity_iff] at h ⊢
    intro i hi
    exact h i (List.mem_filter.mp hi).1
  | csvImport f rows u =>
    simp only [applyOp, applyR, import_from_csv]
    split
    · exact h
    · split
      · exact h
      · split
        · exact h
        · split
          · exact h
          · rename_i hnoerr _
            have hv2 : (validateImport db rows).2 = [] :=
              List.isEmpty_iff.mp (not_not.mp hnoerr)
            have hflags := validateRows_errors_nil db.boxes rows 2 hv2
            refine commitRows_refIntegrity db (validateImport db rows).1 h ?_
            intro ir hir _
            obtain ⟨m, r0, _, heq⟩ := validateRows_mem db.boxes rows 2 ir hir
            rw [heq]
            exact (validateRow_noerror db.boxes m r0
              (heq ▸ hflags ir hir)).2

/-- Every handler keeps P3: no stored item's quantity ever drops below 1. -/
theorem preserve_qtyFloor (db : DB) (op : Op) (h : qtyFloor db = true) :
    qtyFloor (applyOp db op) = true := by
  cases op with
  | addBox n l =>
    cases hb : boxDialogSave n l with
    | none => simpa only [applyOp, applyR, add_box, hb] using h
    | some p =>
      obtain ⟨nm, loc⟩ := p
      simp only [applyOp, applyR, add_box, hb]
      exact h
  | editBox bid0 onm ol nn nl =>
    cases hb : boxDialogSave nn nl with
    | none => simpa only [applyOp, applyR, edit_box, hb] using h
    | some p =>
      obtain ⟨nm, loc⟩ := p
      simp only [applyOp, applyR, edit_box, hb]
      exact h
  | delBox bid0 =>
    simp only [applyOp, applyR, delete_box]
    rw [qtyFloor_iff] at h ⊢
    intro i hi
    by_cases hex : db.boxes.any (fun b => b.id == bid0) = true
    · simp only [hex, if_true] at hi
      exact h i (List.mem_filter.mp hi).1
    · simp only [hex, if_false, Bool.false_eq_true] at hi
      exact h i hi
  | addItem n bsel q =>
    simp only [applyOp, applyR, add_item]
    split
    · exact h
    · cases hs : itemDialogSave n bsel q with
      | none => simp only [hs]; exact h
      | some p =>
        obtain ⟨nm, bid, qq⟩ := p
        cases hf : db.boxes.find? (fun b => b.id == bid) with
        | none => simp only [hs, hf]; exact h
        | some box =>
          simp only [hs, hf]
          rw [qtyFloor_iff] at h ⊢
          intro i hi
          simp only [log_action, List.mem_append, List.mem_singleton] at hi
          rcases hi with hi | rfl
          · exact h i hi
          · exact (itemDialogSave_some n bsel q nm bid qq hs).2.1
  | editItem iid onm oq ob nn bsel q =>
    cases hs : itemDialogSave nn bsel q with
    | none => simpa only [applyOp, applyR, edit_item, hs] using h
    | some p =>
      obtain ⟨nm, bid, qq⟩ := p
      cases hf : db.boxes.find? (fun b => b.id == bid) with
      | none =>
        simp only [applyOp, applyR, edit_item, hs, hf]
        split <;> exact h
      | some nb =>
        have key : qtyFloor { db with items := db.items.map (fun i =>
            if i.id = iid
            then { i with name := nm, boxId := some bid, quantity := qq }
            else i) } = true := by
          rw [qtyFloor_iff] at h ⊢
          intro i hi
          simp only [List.mem_map] at hi
          obtain ⟨j, hj, rfl⟩ := hi
          by_cases hij : j.id = iid
          · simp only [if_pos hij]
            exact (itemDialogSave_some nn bsel q nm bid qq hs).2.1
          · simp only [if_neg hij]
            exact h j hj
        simp only [applyOp, applyR, edit_item, hs, hf]
        split
        · split
          · exact key
          · exact key
        · exact key
  | delItem iid =>
    simp only [applyOp, applyR, delete_item]
    rw [qtyFloor_iff] at h ⊢
    intro i hi
    exact h i (List.mem_filter.mp hi).1
  | csvImport f rows u =>
    simp only [applyOp, applyR, import_from_csv]
    split
    · exact h
    · split
      · exact h
      · split
        · exact h
        · split
          · exact h
          · rename_i hnoerr _
            have hv2 : (validateImport db rows).2 = [] :=
              List.isEmpty_iff.mp (not_not.mp hnoerr)
            have hflags := validateRows_errors_nil db.boxes rows 2 hv2
            refine commitRows_qtyFloor db (validateImport db rows).1 h ?_
            intro ir hir _
            obtain ⟨m, r0, _, heq⟩ := validateRows_mem db.boxes rows 2 ir hir
            rw [heq]
            exact (validateRow_noerror db.boxes m r0
              (heq ▸ hflags ir hir)).1

/-- Invariants transported along a run of handlers. -/
theorem run_refIntegrity (db : DB) (ops : List Op) (h : refIntegrity db = true) :
    refIntegrity (run db ops) = true := by
  induction ops generalizing db with
  | nil => exact h
  | cons op ops ih => exact ih (applyOp db op) (preserve_refIntegrity db op h)

theorem run_qtyFloor (db : DB) (ops : List Op) (h : qtyFloor db = true) :
    qtyFloor (run db ops) = true := by
  induction ops generalizing db with
  | nil => exact h
  | cons op ops ih => exact ih (applyOp db op) (preserve_qtyFloor db op h)

theorem add_box_audit (db : DB) (n l : String) :
    ((add_box db n l).2 = .ok → ∃ e, (add_box db n l).1.logs = db.logs ++ [e] ∧
      e.action = "CREATE" ∧ e.entityType = "BOX") ∧
    (((add_box db n l).2 = .validationError ∨ (add_box db n l).2 = .storageError) →
      (add_box db n l).1 = db) := by
  unfold add_box
  cases hb : boxDialogSave n l with
  | none =>
    exact ⟨fun hc => by simp at hc, fun _ => rfl⟩
  | some p =>
    obtain ⟨nm, loc⟩ := p
    exact ⟨fun _ => ⟨_, rfl, rfl, rfl⟩, fun hc => by rcases hc with hc | hc <;> simp at hc⟩

theorem edit_box_audit (db : DB) (bid : Nat) (onm : String) (ol : Option String)
    (nn nl : String) :
    ((edit_box db bid onm ol nn nl).2 = .ok →
      ∃ e, (edit_box db bid onm ol nn nl).1.logs = db.logs ++ [e] ∧
        e.action = "UPDATE" ∧ e.entityType = "BOX") ∧
    (((edit_box db bid onm ol nn nl).2 = .validationError ∨
      (edit_box db bid onm ol nn nl).2 = .storageError) →
      (edit_box db bid onm ol nn nl).1 = db) := by
  unfold edit_box
  cases hb : boxDialogSave nn nl with
  | none =>
    exact ⟨fun hc => by simp at hc, fun _ => rfl⟩
  | some p =>
    obtain ⟨nm, loc⟩ := p
    exact ⟨fun _ => ⟨_, rfl, rfl, rfl⟩, fun hc => by rcases hc with hc | hc <;> simp at hc⟩

theorem delete_box_audit (db : DB) (bid : Nat) :
    (delete_box db bid).2 = .ok ∧
    ∃ e, (delete_box db bid).1.logs = db.logs ++ [e] ∧
      e.action = "DELETE" ∧ e.entityType = "BOX" :=
  ⟨rfl, _, rfl, rfl, rfl⟩

theorem delete_item_audit (db : DB) (iid : Nat) :
    (delete_item db iid).2 = .ok ∧
    ∃ e, (delete_item db iid).1.logs = db.logs ++ [e] ∧
      e.action = "DELETE" ∧ e.entityType = "ITEM" :=
  ⟨rfl, _, rfl, rfl, rfl⟩

theorem add_item_audit (db : DB) (n : String) (bsel : Option Nat) (q : Int) :
    ((add_item db n bsel q).2 = .ok → ∃ e, (add_item db n bsel q).1.logs = db.logs ++ [e] ∧
      e.action = "CREATE" ∧ e.entityType = "ITEM") ∧
    (((add_item db n bsel q).2 = .validationError ∨
      (add_item db n bsel q).2 = .storageError) → (add_item db n bsel q).1 = db) := by
  unfold add_item
  split
  · exact ⟨fun hc => by simp at hc, fun _ => rfl⟩
  · cases hs : itemDialogSave n bsel q with
    | none =>
      exact ⟨fun hc => by simp at hc, fun _ => rfl⟩
    | some p =>
      obtain ⟨nm, bid, qq⟩ := p
      dsimp only
      cases hf : db.boxes.find? (fun b => b.id == bid) with
      | none => simp
      | some box =>
        exact ⟨fun _ => ⟨_, rfl, rfl, rfl⟩,
          fun hc => by rcases hc with hc | hc <;> simp at hc⟩

theorem edit_item_audit (db : DB) (iid : Nat) (onm : String) (oq : Int)
    (ob : Option Nat) (nn : String) (bsel : Option Nat) (q : Int) :
    ((edit_item db iid onm oq ob nn bsel q).2 = .ok →
      ∃ e, (edit_item db iid onm oq ob nn bsel q).1.logs = db.logs ++ [e] ∧
        e.action = "UPDATE" ∧ e.entityType = "ITEM") ∧
    (((edit_item db iid onm oq ob nn bsel q).2 = .validationError ∨
      (edit_item db iid onm oq ob nn bsel q).2 = .storageError) →
      (edit_item db iid onm oq ob nn bsel q).1 = db) := by
  unfold edit_item
  cases hs : itemDialogSave nn bsel q with
  | none =>
    exact ⟨fun hc => by simp at hc, fun _ => rfl⟩
  | some p =>
    obtain ⟨nm, bid, qq⟩ := p
    dsimp only
    cases hf : db.boxes.find? (fun b => b.id == bid) with
    | none =>
      dsimp only
      split <;> simp
    | some nb =>
      dsimp only
      by_cases hchg : ob ≠ some bid
      · rw [if_pos hchg]
        cases hof : db.boxes.find? (fun b => ob == some b.id) with
        | none => simp
        | some ob' =>
          exact ⟨fun _ => ⟨_, rfl, rfl, rfl⟩,
            fun hc => by rcases hc with hc | hc <;> simp at hc⟩
      · rw [if_neg hchg]
        exact ⟨fun _ => ⟨_, rfl, rfl, rfl⟩,
          fun hc => by rcases hc with hc | hc <;> simp at hc⟩

theorem import_from_csv_audit (db : DB) (f : List String) (rows : List CsvRow) (u : Bool) :
    ((import_from_csv db f rows u).2 = .ok →
      ∃ e, (import_from_csv db f rows u).1.logs = db.logs ++ [e] ∧
        e.action = "IMPORT" ∧ e.entityType = "INVENTORY") ∧
    ((import_from_csv db f rows u).2 ≠ .ok → (import_from_csv db f rows u).1 = db) := by
  unfold import_from_csv
  split
  · exact ⟨fun hc => by simp at hc, fun _ => rfl⟩
  · split
    · exact ⟨fun hc => by simp at hc, fun _ => rfl⟩
    · split
      · exact ⟨fun hc => by simp at hc, fun _ => rfl⟩
      · split
        · exact ⟨fun hc => by simp at hc, fun _ => rfl⟩
        · refine ⟨fun _ => ⟨⟨"IMPORT", "INVENTORY", none, none,
            some ("Imported " ++ toString (commitRows db (validateImport db rows).1).2
              ++ " items from CSV (" ++ toString (0 : Nat) ++ " failed)"), none, none⟩,
            ?_, rfl, rfl⟩, fun hc => absurd rfl hc⟩
          rw [log_action_logs, commitRows_logs]

theorem list_map_id_of {α : Type} (l : List α) (f : α → α) (h : ∀ a ∈ l, f a = a) :
    l.map f = l := by
  induction l with
  | nil => rfl
  | cons a as ih => simp [h a (by simp), ih fun x hx => h x (by simp [hx])]

/-! ### Claim theorems -/

/-- C1, counterexample: run `add_box` ("Garage", no location) on the fresh store with
the audit-log INSERT failing. The claim says the whole mutation is rolled back and the
store is left unchanged; in fact the committed store keeps the new box and holds no
audit entry — the commit on tabs_boxes.py line 188 happened before `log_action` ran. -/
theorem c1_counterexample :
    (add_box_steps ⟨initialDB, initialDB⟩ "Garage" "" true).committed.boxes =
      [⟨1, "Garage", some ""⟩] ∧
    (add_box_steps ⟨initialDB, initialDB⟩ "Garage" "" true).committed.logs = [] :=
  ⟨rfl, rfl⟩

/-- C1, amended: `add_box` commits the box INSERT before appending the audit entry.
If the audit INSERT fails, the handler's `conn.rollback()` discards only the pending
audit insert: the committed store keeps the new box and gains no audit entry. If the
audit INSERT succeeds, the committed store keeps the new box and gains exactly one
CREATE/BOX entry. -/
theorem c1_amended (db : DB) (name location : String) :
    (add_box_steps ⟨db, db⟩ name location true).committed.boxes =
      db.boxes ++ [⟨db.nextBoxId, name, some location⟩] ∧
    (add_box_steps ⟨db, db⟩ name location true).committed.logs = db.logs ∧
    (add_box_steps ⟨db, db⟩ name location false).committed.boxes =
      db.boxes ++ [⟨db.nextBoxId, name, some location⟩] ∧
    ∃ e, (add_box_steps ⟨db, db⟩ name location false).committed.logs = db.logs ++ [e] ∧
      e.action = "CREATE" ∧ e.entityType = "BOX" :=
  ⟨rfl, rfl, rfl, _, rfl, rfl, rfl⟩

/-- C3, counterexample: on the empty store, `delete_box 1` and `edit_box 1` complete
as successes — there is no `NotFoundError` result at all — and `delete_box` still
appends a DELETE/BOX audit entry, so the audit log is NOT left unchanged in the
not-found case. -/
theorem c3_counterexample :
    (delete_box initialDB 1).2 = .ok ∧
    (edit_box initialDB 1 "Garage" none "Garage" "Shelf").2 = .ok ∧
    (delete_box initialDB 1).1.logs =
      [⟨"DELETE", "BOX", some 1, some "Unknown", some "Deleted box with 0 items",
        none, none⟩] := by
  decide

/-- C3, amended: `updateBox`/`deleteBox` on an id that no stored box carries do not
fail: `delete_box` reports success, leaves boxes and items unchanged, and still appends
a DELETE/BOX entry named "Unknown" with details "Deleted box with 0 items";
`edit_box`, whenever its dialog input validates (its only failure mode), reports
success, leaves the boxes unchanged, and still appends one UPDATE/BOX entry. -/
theorem c3_amended (db : DB) (bid : Nat) (oldName : String) (oldLoc : Option String)
    (nr lr : String) (hb : ∀ b ∈ db.boxes, b.id ≠ bid) (hri : refIntegrity db = true) :
    (delete_box db bid).2 = .ok ∧
    (delete_box db bid).1.boxes = db.boxes ∧
    (delete_box db bid).1.items = db.items ∧
    (delete_box db bid).1.logs = db.logs ++
      [⟨"DELETE", "BOX", some bid, some "Unknown", some "Deleted box with 0 items",
        none, none⟩] ∧
    ((edit_box db bid oldName oldLoc nr lr).2 = .ok →
      (edit_box db bid oldName oldLoc nr lr).1.boxes = db.boxes ∧
      (edit_box db bid oldName oldLoc nr lr).1.logs.length = db.logs.length + 1) := by
  have hfind : db.boxes.find? (fun b => b.id == bid) = none :=
    List.find?_eq_none.mpr (fun b hbm => by simp [hb b hbm])
  have hany : db.boxes.any (fun b => b.id == bid) = false :=
    List.any_eq_false.mpr (fun b hbm => by simp [hb b hbm])
  have hcnt : db.items.filter (fun i => i.boxId == some bid) = [] := by
    rw [List.filter_eq_nil]
    intro i him
    obtain ⟨bid', hbid', b, hbm, hid⟩ := (refIntegrity_iff db).mp hri i him
    simp only [hbid', beq_iff_eq, Option.some.injEq]
    intro hcontra
    exact hb b hbm (hid.trans hcontra)
  refine ⟨rfl, ?_, ?_, ?_, ?_⟩
  · exact List.filter_eq_self.mpr (fun b hbm => by simp [hb b hbm])
  · simp [delete_box, log_action, hany]
  · simp only [delete_box, hfind, hcnt, log_action_logs]
    rfl
  · intro hok
    unfold edit_box at hok ⊢
    cases hbds : boxDialogSave nr lr with
    | none => rw [hbds] at hok; simp at hok
    | some p =>
      obtain ⟨nm, loc⟩ := p
      constructor
      · exact list_map_id_of _ _ (fun b hbm => by simp [hb b hbm])
      · simp [log_action_logs]

/-- A store with one box "Garage" (id 1) holding one item "Hammer" (id 1, quantity 3),
used to instantiate the hypothesis-bearing theorems. -/
def sampleDB : DB :=
  ⟨[⟨1, "Garage", some "Shelf 2"⟩], [⟨1, "Hammer", some 1, 3⟩], [], 2, 2⟩

/-- Witness for the amended C3 at a concrete input: box id 2 is absent from
`sampleDB`. -/
theorem c3_amended_witness :
    (delete_box sampleDB 2).2 = .ok ∧
    (delete_box sampleDB 2).1.boxes = sampleDB.boxes ∧
    (delete_box sampleDB 2).1.items = sampleDB.items ∧
    (delete_box sampleDB 2).1.logs = sampleDB.logs ++
      [⟨"DELETE", "BOX", some 2, some "Unknown", some "Deleted box with 0 items",
        none, none⟩] ∧
    ((edit_box sampleDB 2 "Garage" none "Garage" "Shelf").2 = .ok →
      (edit_box sampleDB 2 "Garage" none "Garage" "Shelf").1.boxes = sampleDB.boxes ∧
      (edit_box sampleDB 2 "Garage" none "Garage" "Shelf").1.logs.length =
        sampleDB.logs.length + 1) :=
  c3_amended sampleDB 2 "Garage" none "Garage" "Shelf" (by decide) (by decide)

/-- C2, counterexample: `delete_item 5` on the empty store targets a nonexistent id.
The claim counts this among failing calls that must append zero audit entries; the
handler instead reports success and appends one DELETE/ITEM entry (snapshot defaults
"Unknown"/0). -/
theorem c2_counterexample :
    (delete_item initialDB 5).2 = .ok ∧
    (delete_item initialDB 5).1.logs =
      [⟨"DELETE", "ITEM", some 5, some "Unknown",
        some "Deleted 0 units from box 'Unknown'", none, none⟩] := by
  decide

/-- C2, amended: every operation that reports success appends exactly one audit entry
with the matching action and entity type, and every validation or storage (FK) failure
leaves the store — audit log included — unchanged; but a delete on a nonexistent id
does not fail: it reports success, leaves the items unchanged, and still appends one
DELETE entry (entity name "Unknown"). -/
theorem c2_amended :
    (∀ (db : DB) (op : Op),
      ((applyR db op).2 = .ok → ∃ e, (applyR db op).1.logs = db.logs ++ [e] ∧
        e.action = opAction op ∧ e.entityType = opEntityType op) ∧
      (((applyR db op).2 = .validationError ∨ (applyR db op).2 = .storageError) →
        (applyR db op).1 = db)) ∧
    (∀ (db : DB) (iid : Nat), (∀ i ∈ db.items, i.id ≠ iid) →
      (delete_item db iid).2 = .ok ∧
      (delete_item db iid).1.items = db.items ∧
      (delete_item db iid).1.logs = db.logs ++
        [⟨"DELETE", "ITEM", some iid, some "Unknown",
          some "Deleted 0 units from box 'Unknown'", none, none⟩]) := by
  constructor
  · intro db op
    cases op with
    | addBox n l => exact add_box_audit db n l
    | editBox bid onm ol nn nl => exact edit_box_audit db bid onm ol nn nl
    | delBox bid =>
      simp only [applyR]
      refine ⟨fun _ => (delete_box_audit db bid).2, fun hc => ?_⟩
      rcases hc with hc | hc <;> rw [(delete_box_audit db bid).1] at hc <;> simp at hc
    | addItem n bsel q => exact add_item_audit db n bsel q
    | editItem iid onm oq ob nn bsel q => exact edit_item_audit db iid onm oq ob nn bsel q
    | delItem iid =>
      simp only [applyR]
      refine ⟨fun _ => (delete_item_audit db iid).2, fun hc => ?_⟩
      rcases hc with hc | hc <;> rw [(delete_item_audit db iid).1] at hc <;> simp at hc
    | csvImport f r u =>
      refine ⟨(import_from_csv_audit db f r u).1,
        fun hc => (import_from_csv_audit db f r u).2 (fun hok => ?_)⟩
      simp only [applyR] at hc
      rcases hc with hc | hc <;> rw [hok] at hc <;> simp at hc
  · intro db iid h
    have hfind : db.items.find? (fun i => i.id == iid) = none :=
      List.find?_eq_none.mpr (fun i him => by simp [h i him])
    refine ⟨rfl, ?_, ?_⟩
    · exact List.filter_eq_self.mpr (fun i him => by simp [h i him])
    · simp only [delete_item, hfind, log_action_logs]
      have hstr : ("Deleted " ++ toString (0 : Int) ++ " units from box '" ++ "Unknown" ++ "'")
          = "Deleted 0 units from box 'Unknown'" := by decide
      rw [hstr]

/-- Witness for the amended C2 at a concrete input: `add_box` on the empty store
reports success and appends its one CREATE/BOX entry. -/
theorem c2_amended_witness :
    ∃ e, (applyR initialDB (.addBox "Garage" "Shelf 2")).1.logs = initialDB.logs ++ [e] ∧
      e.action = opAction (.addBox "Garage" "Shelf 2") ∧
      e.entityType = opEntityType (.addBox "Garage" "Shelf 2") :=
  (c2_amended.1 initialDB (.addBox "Garage" "Shelf 2")).1 (by decide)

/-- C5: referential integrity. Any run of handlers from the fresh store keeps every
stored item's `box_id` pointing at an existing box, and immediately after
`delete_box b` on a store satisfying the invariant, `load_items` lists no item with
`box_id = b` (the box's items went in the same cascade-delete statement). -/
theorem c5_referential_integrity (ops : List Op) (db : DB) (bid : Nat)
    (hri : refIntegrity db = true) :
    refIntegrity (run initialDB ops) = true ∧
    ∀ p ∈ load_items (delete_box db bid).1, p.1.boxId ≠ some bid := by
  constructor
  · exact run_refIntegrity initialDB ops rfl
  · intro p hp
    simp only [load_items, List.mem_map] at hp
    obtain ⟨i, hi, rfl⟩ := hp
    rw [List.mem_mergeSort] at hi
    simp only [delete_box, log_action] at hi
    by_cases hex : db.boxes.any (fun b => b.id == bid) = true
    · simp only [hex, if_true] at hi
      have hflag := (List.mem_filter.mp hi).2
      simpa using hflag
    · simp only [hex, if_false, Bool.false_eq_true] at hi
      obtain ⟨bid', hbid', b, hbm, hid⟩ := (refIntegrity_iff db).mp hri i hi
      intro hcontra
      rw [hbid'] at hcontra
      apply hex
      exact List.any_eq_true.mpr ⟨b, hbm, by simp [hid, Option.some.inj hcontra]⟩

/-- Witness for C5 at concrete inputs: a two-handler run, and a delete on the sample
store. -/
theorem c5_witness :
    refIntegrity (run initialDB
      [.addBox "Garage" "Shelf 2", .addItem "Hammer" (some 1) 3]) = true ∧
    ∀ p ∈ load_items (delete_box sampleDB 1).1, p.1.boxId ≠ some 1 :=
  c5_referential_integrity [.addBox "Garage" "Shelf 2", .addItem "Hammer" (some 1) 3]
    sampleDB 1 (by decide)

/-- C6: quantity floor. Any run of handlers from the fresh store keeps every stored
item's quantity at 1 or more, and `add_item` / `edit_item` called with a quantity of 0
or less return the store unchanged with a validation error — no row and no audit entry
is written. -/
theorem c6_quantity_floor (ops : List Op) (db : DB) (iid : Nat) (onm : String)
    (oq : Int) (ob : Option Nat) (nameRaw : String) (bsel : Option Nat) (q : Int)
    (hq : q < 1) :
    qtyFloor (run initialDB ops) = true ∧
    add_item db nameRaw bsel q = (db, .validationError) ∧
    edit_item db iid onm oq ob nameRaw bsel q = (db, .validationError) := by
  refine ⟨run_qtyFloor initialDB ops rfl, ?_, ?_⟩
  · unfold add_item
    rw [itemDialogSave_eq_none nameRaw bsel q hq]
    split <;> rfl
  · unfold edit_item
    rw [itemDialogSave_eq_none nameRaw bsel q hq]

/-- Witness for C6 at concrete inputs: a run that creates an item, and quantity 0
requests against the sample store. -/
theorem c6_witness :
    qtyFloor (run initialDB
      [.addBox "Garage" "Shelf 2", .addItem "Hammer" (some 1) 3]) = true ∧
    add_item sampleDB "Bolt" (some 1) 0 = (sampleDB, .validationError) ∧
    edit_item sampleDB 1 "Hammer" 3 (some 1) "Hammer" (some 1) 0 =
      (sampleDB, .validationError) :=
  c6_quantity_floor [.addBox "Garage" "Shelf 2", .addItem "Hammer" (some 1) 3]
    sampleDB 1 "Hammer" 3 (some 1) "Bolt" (some 1) 0 (by decide)

/-- C4: import gating. With a well-formed header and a nonempty CSV: if validation
produced at least one error, the import refuses to commit whatever the user does and
the store is untouched; with zero errors and the user confirming, exactly one item per
data row is inserted and exactly one IMPORT/INVENTORY summary entry (with the
succeeded/failed counts) is appended — no per-row entries. -/
theorem c4_import_gating (db : DB) (fieldnames : List String) (rows : List CsvRow)
    (accept : Bool) (hh : headersOk fieldnames = true) (hne : rows ≠ []) :
    ((validateImport db rows).2 ≠ [] →
      import_from_csv db fieldnames rows accept = (db, .refusedErrors)) ∧
    ((validateImport db rows).2 = [] →
      (import_from_csv db fieldnames rows true).2 = .ok ∧
      (import_from_csv db fieldnames rows true).1.items.length =
        db.items.length + rows.length ∧
      ∃ e, (import_from_csv db fieldnames rows true).1.logs = db.logs ++ [e] ∧
        e.action = "IMPORT" ∧ e.entityType = "INVENTORY" ∧
        e.details = some ("Imported " ++ toString rows.length
          ++ " items from CSV (0 failed)")) := by
  have hlen : (validateImport db rows).1.length = rows.length :=
    validateRows_length db.boxes rows 2
  have hne' : ¬ (validateImport db rows).1.isEmpty = true := by
    rw [List.isEmpty_iff]
    intro hnil
    rw [hnil] at hlen
    exact hne (List.length_eq_zero.mp hlen.symm)
  constructor
  · intro herr
    unfold import_from_csv
    rw [if_neg (by simp [hh]), if_neg hne',
      if_pos (fun hemp => herr (List.isEmpty_iff.mp hemp))]
  · intro hz
    have hflags := validateRows_errors_nil db.boxes rows 2 hz
    have hcommit := commitRows_all_ok db (validateImport db rows).1 hflags
    have hcl := commitRows_logs db (validateImport db rows).1
    unfold import_from_csv
    rw [if_neg (by simp [hh]), if_neg hne', if_neg (by simp [hz]), if_neg (by simp)]
    refine ⟨rfl, ?_, ?_⟩
    · show (commitRows db (validateImport db rows).1).1.items.length = _
      rw [hcommit.1, hlen]
    · refine ⟨⟨"IMPORT", "INVENTORY", none, none,
        some ("Imported " ++ toString (commitRows db (validateImport db rows).1).2
          ++ " items from CSV (" ++ toString (0 : Nat) ++ " failed)"), none, none⟩,
        ?_, rfl, rfl, ?_⟩
      · rw [log_action_logs, hcl]
      · rw [hcommit.2, hlen]
        simp only [String.append_assoc]
        have hs : (" items from CSV (" ++ (toString (0 : Nat) ++ " failed)")) =
            " items from CSV (0 failed)" := by decide
        rw [hs]

/-- Witness for C4 at a concrete input: importing one valid row into the sample store. -/
theorem c4_witness :
    (import_from_csv sampleDB requiredHeaders [⟨"Bolt", "Garage", "10"⟩] true).2 = .ok ∧
    (import_from_csv sampleDB requiredHeaders [⟨"Bolt", "Garage", "10"⟩] true).1.items.length =
      sampleDB.items.length + [(⟨"Bolt", "Garage", "10"⟩ : CsvRow)].length ∧
    ∃ e, (import_from_csv sampleDB requiredHeaders [⟨"Bolt", "Garage", "10"⟩] true).1.logs =
        sampleDB.logs ++ [e] ∧
      e.action = "IMPORT" ∧ e.entityType = "INVENTORY" ∧
      e.details = some ("Imported " ++ toString [(⟨"Bolt", "Garage", "10"⟩ : CsvRow)].length
        ++ " items from CSV (0 failed)") :=
  (c4_import_gating sampleDB requiredHeaders [⟨"Bolt", "Garage", "10"⟩] true
    (by decide) (by decide)).2 (by decide)

theorem str_congr_append (s1 s2 t : String) (h : s1 = s2) : s1 ++ t = s2 ++ t := by
  rw [h]

theorem strMergeQty (t : String) :
    "'" ++ (", " ++ ("quantity: " ++ t)) = "', quantity: " ++ t := by
  rw [← String.append_assoc, ← String.append_assoc]
  exact str_congr_append _ _ _ (by decide)

theorem strMergeBox (t : String) :
    ", " ++ ("box: '" ++ t) = ", box: '" ++ t := by
  rw [← String.append_assoc]
  exact str_congr_append _ _ _ (by decide)

/-- C7: the audit details of updateBox/updateItem are a diff of the prior values.
With valid dialog input: when nothing changed the details are exactly "No changes"
(box and item alike); when only the quantity changed the details are exactly
"quantity: old → new" with no name or box clause; when only the name changed (box)
the details are exactly the one name clause; and when name, quantity and box all
changed the details are the three clauses comma-joined in that order. -/
theorem c7_update_details :
    (∀ (db : DB) (bid : Nat) (oldName : String) (oldLoc : Option String) (nr lr newLoc : String),
      boxDialogSave nr lr = some (oldName, newLoc) → oldLoc = some newLoc →
      ∃ e, (edit_box db bid oldName oldLoc nr lr).1.logs = db.logs ++ [e] ∧
        e.details = some "No changes") ∧
    (∀ (db : DB) (bid : Nat) (oldName : String) (oldLoc : Option String)
      (nr lr newName newLoc : String),
      boxDialogSave nr lr = some (newName, newLoc) → oldLoc = some newLoc →
      oldName ≠ newName →
      ∃ e, (edit_box db bid oldName oldLoc nr lr).1.logs = db.logs ++ [e] ∧
        e.details = some ("name: '" ++ oldName ++ "' → '" ++ newName ++ "'")) ∧
    (∀ (db : DB) (iid : Nat) (oldName : String) (oldQty : Int) (bid : Nat) (nb : Box)
      (nn : String) (bsel : Option Nat) (newQty : Int),
      itemDialogSave nn bsel newQty = some (oldName, bid, newQty) →
      db.boxes.find? (fun b => b.id == bid) = some nb →
      oldQty = newQty →
      ∃ e, (edit_item db iid oldName oldQty (some bid) nn bsel newQty).1.logs =
          db.logs ++ [e] ∧
        e.details = some "No changes") ∧
    (∀ (db : DB) (iid : Nat) (oldName : String) (oldQty : Int) (bid : Nat) (nb : Box)
      (nn : String) (bsel : Option Nat) (newQty : Int),
      itemDialogSave nn bsel newQty = some (oldName, bid, newQty) →
      db.boxes.find? (fun b => b.id == bid) = some nb →
      oldQty ≠ newQty →
      ∃ e, (edit_item db iid oldName oldQty (some bid) nn bsel newQty).1.logs =
          db.logs ++ [e] ∧
        e.details = some ("quantity: " ++ toString oldQty ++ " → " ++ toString newQty)) ∧
    (∀ (db : DB) (iid : Nat) (oldName newName : String) (oldQty newQty : Int)
      (obid bid : Nat) (ob nb : Box) (nn : String) (bsel : Option Nat),
      itemDialogSave nn bsel newQty = some (newName, bid, newQty) →
      db.boxes.find? (fun b => b.id == bid) = some nb →
      db.boxes.find? (fun b => (some obid : Option Nat) == some b.id) = some ob →
      oldName ≠ newName → oldQty ≠ newQty → obid ≠ bid →
      ∃ e, (edit_item db iid oldName oldQty (some obid) nn bsel newQty).1.logs =
          db.logs ++ [e] ∧
        e.details = some ("name: '" ++ oldName ++ "' → '" ++ newName ++ "', quantity: "
          ++ toString oldQty ++ " → " ++ toString newQty ++ ", box: '" ++ ob.name
          ++ "' → '" ++ nb.name ++ "'")) := by
  refine ⟨?_, ?_, ?_, ?_, ?_⟩
  · intro db bid oldName oldLoc nr lr newLoc hsave hloc
    subst hloc
    unfold edit_box
    rw [hsave]
    refine ⟨_, rfl, ?_⟩
    simp [boxChanges]
  · intro db bid oldName oldLoc nr lr newName newLoc hsave hloc hne
    subst hloc
    unfold edit_box
    rw [hsave]
    refine ⟨_, rfl, ?_⟩
    simp [boxChanges, hne]
    rfl
  · intro db iid oldName oldQty bid nb nn bsel newQty hsave hfind heq
    subst heq
    unfold edit_item
    rw [hsave]
    dsimp only
    rw [hfind]
    dsimp only
    rw [if_neg (by simp)]
    refine ⟨_, rfl, ?_⟩
    simp
  · intro db iid oldName oldQty bid nb nn bsel newQty hsave hfind hne
    unfold edit_item
    rw [hsave]
    dsimp only
    rw [hfind]
    dsimp only
    rw [if_neg (by simp)]
    refine ⟨_, rfl, ?_⟩
    simp [hne]
    rfl
  · intro db iid oldName newName oldQty newQty obid bid ob nb nn bsel hsave hfindn
      hfindo hnne hqne hbne
    unfold edit_item
    rw [hsave]
    dsimp only
    rw [hfindn]
    dsimp only
    rw [if_pos (by simp [hbne]), hfindo]
    refine ⟨_, rfl, ?_⟩
    rw [if_pos hnne, if_pos hqne, if_neg (by simp)]
    simp only [List.append_assoc, List.singleton_append, List.cons_append,
      List.nil_append]
    have hint : ", ".intercalate ["name: '" ++ oldName ++ "' → '" ++ newName ++ "'",
        "quantity: " ++ toString oldQty ++ " → " ++ toString newQty,
        "box: '" ++ ob.name ++ "' → '" ++ nb.name ++ "'"] =
      ("name: '" ++ oldName ++ "' → '" ++ newName ++ "'") ++ ", " ++
        ("quantity: " ++ toString oldQty ++ " → " ++ toString newQty) ++ ", " ++
        ("box: '" ++ ob.name ++ "' → '" ++ nb.name ++ "'") := rfl
    rw [hint]
    simp only [String.append_assoc, strMergeQty, strMergeBox]

/-- Witness for C7 at the claim's concrete scenario: editing "Hammer" in the sample
store changing only the quantity from 5 to 8 yields details exactly "quantity: 5 → 8". -/
theorem c7_witness :
    (∃ e, (edit_item sampleDB 1 "Hammer" 5 (some 1) "Hammer" (some 1) 8).1.logs =
        sampleDB.logs ++ [e] ∧
      e.details = some ("quantity: " ++ toString (5 : Int) ++ " → " ++ toString (8 : Int))) ∧
    ("quantity: " ++ toString (5 : Int) ++ " → " ++ toString (8 : Int)) = "quantity: 5 → 8" :=
  ⟨c7_update_details.2.2.2.1 sampleDB 1 "Hammer" 5 1 ⟨1, "Garage", some "Shelf 2"⟩
    "Hammer" (some 1) 8 (by decide) (by decide) (by decide), by decide⟩

theorem validateRows_item_name_empty (boxes : List Box) (rows : List CsvRow) (n i : Nat)
    (hi : i < rows.length) (he : pyStrip (rows.get ⟨i, hi⟩).itemName = "") :
    ("Row " ++ toString (n + i) ++ ": Item name is empty") ∈ (validateRows boxes n rows).2 := by
  induction rows generalizing n i with
  | nil => simp at hi
  | cons r rs ih =>
    cases i with
    | zero =>
      simp only [validateRows, List.mem_append]
      left
      have he' : pyStrip r.itemName = "" := by simpa using he
      simp [validateRow, he']
    | succ j =>
      have hj : j < rs.length := by simpa using hi
      have hmem := ih (n + 1) j hj (by simpa using he)
      simp only [validateRows, List.mem_append]
      right
      have harith : n + 1 + j = n + (j + 1) := by omega
      rw [harith] at hmem
      exact hmem

/-- C8: rows are numbered with the header as row 1 (`enumerate(reader, start=2)`), so
an empty item name on 0-indexed data row `i` is reported as exactly
"Row (i+2): Item name is empty"; in the claim's scenario — rows ("Bolt","Garage","10")
and ("","Garage","5") against a store with box "Garage" — validation yields the single
error "Row 3: Item name is empty" and the import refuses, writing nothing. -/
theorem c8_row_numbering (db : DB) (rows : List CsvRow) (i : Nat) (hi : i < rows.length)
    (he : pyStrip (rows.get ⟨i, hi⟩).itemName = "") :
    ("Row " ++ toString (i + 2) ++ ": Item name is empty") ∈ (validateImport db rows).2 ∧
    (validateImport (add_box initialDB "Garage" "").1
      [⟨"Bolt", "Garage", "10"⟩, ⟨"", "Garage", "5"⟩]).2 = ["Row 3: Item name is empty"] ∧
    import_from_csv (add_box initialDB "Garage" "").1 requiredHeaders
      [⟨"Bolt", "Garage", "10"⟩, ⟨"", "Garage", "5"⟩] true =
      ((add_box initialDB "Garage" "").1, .refusedErrors) := by
  refine ⟨?_, by decide, by decide⟩
  have hmem := validateRows_item_name_empty db.boxes rows 2 i hi he
  rwa [Nat.add_comm 2 i] at hmem

/-- Witness for C8 at a concrete input: a one-row CSV whose only data row has an empty
item name. -/
theorem c8_witness :
    ("Row " ++ toString (0 + 2) ++ ": Item name is empty") ∈
      (validateImport initialDB [⟨"", "x", "1"⟩]).2 ∧
    (validateImport (add_box initialDB "Garage" "").1
      [⟨"Bolt", "Garage", "10"⟩, ⟨"", "Garage", "5"⟩]).2 = ["Row 3: Item name is empty"] ∧
    import_from_csv (add_box initialDB "Garage" "").1 requiredHeaders
      [⟨"Bolt", "Garage", "10"⟩, ⟨"", "Garage", "5"⟩] true =
      ((add_box initialDB "Garage" "").1, .refusedErrors) :=
  c8_row_numbering initialDB [⟨"", "x", "1"⟩] 0 (by decide) (by decide)

/-- C9: the header check. A fieldname list missing any of the exact, case-sensitive
required names "Item Name"/"Box"/"Quantity" makes the whole import return a format
error with the store untouched, before any row is validated or written; a complete
header never yields the format error, and additional columns are harmless (while a
case-mismatched name is not accepted). -/
theorem c9_header_check (db : DB) (fieldnames : List String) (rows : List CsvRow)
    (u : Bool) :
    (headersOk fieldnames = false →
      import_from_csv db fieldnames rows u = (db, .formatError)) ∧
    (headersOk fieldnames = true →
      (import_from_csv db fieldnames rows u).2 ≠ .formatError) ∧
    headersOk (requiredHeaders ++ ["Extra Column"]) = true ∧
    headersOk ["item name", "Box", "Quantity"] = false := by
  refine ⟨?_, ?_, by decide, by decide⟩
  · intro h
    unfold import_from_csv
    rw [if_pos (by simp [h])]
  · intro h
    unfold import_from_csv
    rw [if_neg (by simp [h])]
    split
    · simp
    · split
      · simp
      · split
        · simp
        · simp

/-- Witness for C9 at a concrete input: a header missing the "Quantity" column. -/
theorem c9_witness :
    import_from_csv initialDB ["Item Name", "Box"] [] false = (initialDB, .formatError) :=
  (c9_header_check initialDB ["Item Name", "Box"] [] false).1 (by decide)

/-- C10: duplicate box names under case-insensitive matching. The `existing_boxes`
dict lookup always resolves a key to the id of the LAST box in the scan order whose
lowercased name equals it; a row that is otherwise valid and names a (possibly
duplicated) existing box produces no validation error and carries exactly that box id;
and the commit loop inserts each flag-free row with the box id its preview record
carries. -/
theorem c10_duplicate_box_names :
    (∀ (boxes : List Box) (key : String),
      existing_boxes_get boxes key =
        ((boxes.filter (fun b => pyLower b.name == key)).getLast?).map Box.id) ∧
    (∀ (boxes : List Box) (n : Nat) (r : CsvRow),
      pyStrip r.itemName ≠ "" →
      pyStrip r.box ≠ "" →
      boxes.filter (fun b => pyLower b.name == pyLower (pyStrip r.box)) ≠ [] →
      (∃ q, pyInt? (pyStrip r.quantity) = some q ∧ 1 ≤ q) →
      (validateRow boxes n r).2 = [] ∧
      (validateRow boxes n r).1.error = false ∧
      (validateRow boxes n r).1.boxId =
        ((boxes.filter (fun b => pyLower b.name == pyLower (pyStrip r.box))).getLast?).map
          Box.id) ∧
    (∀ (db : DB) (irs : List ImportRow),
      (commitRows db irs).1.items.map Item.boxId =
        db.items.map Item.boxId ++ (irs.filter (fun r => !r.error)).map ImportRow.boxId) := by
  refine ⟨fun boxes key => existing_boxes_get_eq_getLast boxes key, ?_, ?_⟩
  · intro boxes n r hname hbox hfilter hq
    obtain ⟨q, hpq, hq1⟩ := hq
    have hqlt : ¬ q < 1 := by omega
    obtain ⟨b0, hl⟩ : ∃ b0,
        (boxes.filter (fun b => pyLower b.name == pyLower (pyStrip r.box))).getLast? =
          some b0 := by
      cases hl : (boxes.filter (fun b => pyLower b.name == pyLower (pyStrip r.box))).getLast?
        with
      | none => exact absurd (List.getLast?_eq_none_iff.mp hl) hfilter
      | some b0 => exact ⟨b0, rfl⟩
    have hget : existing_boxes_get boxes (pyLower (pyStrip r.box)) = some b0.id := by
      rw [existing_boxes_get_eq_getLast, hl]
      rfl
    have herrs : (validateRow boxes n r).2 = [] := by
      simp [validateRow, hname, hbox, hget, hpq, hqlt]
    refine ⟨herrs, ?_, ?_⟩
    · rw [validateRow_error_eq, herrs]
      rfl
    · show existing_boxes_get boxes (pyLower (pyStrip r.box)) = _
      rw [hget, hl]
      rfl
  · intro db irs
    induction irs generalizing db with
    | nil => simp [commitRows]
    | cons r rs ih =>
      simp only [commitRows]
      split
      · rename_i herr
        rw [ih db]
        simp [List.filter_cons, herr]
      · rename_i herr
        rw [ih]
        simp only [List.filter_cons, Bool.not_eq_true']
        rw [if_pos (by simpa using herr)]
        simp [List.map_append]

/-- Witness for C10 at a concrete input: two boxes whose names are equal ignoring
case ("Garage" id 1, "garage" id 2); a valid row naming "GARAGE" validates cleanly and
resolves to the id of the later box. -/
theorem c10_witness :
    (validateRow [⟨1, "Garage", none⟩, ⟨2, "garage", some "B"⟩] 2
      ⟨"Bolt", "GARAGE", "10"⟩).2 = [] ∧
    (validateRow [⟨1, "Garage", none⟩, ⟨2, "garage", some "B"⟩] 2
      ⟨"Bolt", "GARAGE", "10"⟩).1.error = false ∧
    (validateRow [⟨1, "Garage", none⟩, ⟨2, "garage", some "B"⟩] 2
      ⟨"Bolt", "GARAGE", "10"⟩).1.boxId =
      (([⟨1, "Garage", none⟩, ⟨2, "garage", some "B"⟩].filter
        (fun b => pyLower b.name ==
          pyLower (pyStrip (⟨"Bolt", "GARAGE", "10"⟩ : CsvRow).box))).getLast?).map Box.id :=
  c10_duplicate_box_names.2.1 [⟨1, "Garage", none⟩, ⟨2, "garage", some "B"⟩] 2
    ⟨"Bolt", "GARAGE", "10"⟩ (by decide) (by decide) (by decide) ⟨10, by decide, by decide⟩

end BoxInv

namespace BoxInv

example : (add_box initialDB "Garage" "").2 = .ok := by decide

example : (add_box initialDB "  Garage " "Shelf 2").1.boxes =
    [⟨1, "Garage", some "Shelf 2"⟩] := by decide

example : (add_box initialDB "   " "x").2 = .validationError := by decide

example : (delete_box initialDB 1).2 = .ok ∧
    (delete_box initialDB 1).1.logs =
      [⟨"DELETE", "BOX", some 1, some "Unknown", some "Deleted box with 0 items",
        none, none⟩] := by decide

example : (delete_item initialDB 7).1.logs =
    [⟨"DELETE", "ITEM", some 7, some "Unknown", some "Deleted 0 units from box 'Unknown'",
      none, none⟩] := by decide

example : pyInt? "10" = some 10 ∧ pyInt? "-3" = some (-3) ∧ pyInt? "x" = none ∧
    pyInt? "" = none := by decide

example :
    let db := (add_box initialDB "Garage" "").1
    validateImport db [⟨"Bolt", "Garage", "10"⟩, ⟨"", "Garage", "5"⟩] =
      ([⟨2, "Bolt", "Garage", some 1, 10, false⟩, ⟨3, "", "Garage", some 1, 5, true⟩],
        ["Row 3: Item name is empty"]) := by decide

example :
    let db := (add_box initialDB "Garage" "").1
    (import_from_csv db requiredHeaders [⟨"Bolt", "Garage", "10"⟩] true).1.items =
      [⟨1, "Bolt", some 1, 10⟩] := by decide

example :
    let db := (add_box initialDB "Garage" "").1
    (import_from_csv db requiredHeaders [⟨"Bolt", "Garage", "10"⟩] true).1.logs.length = 2
    := by decide

example : (add_box_steps ⟨initialDB, initialDB⟩ "Garage" "" true).committed.boxes ≠ [] ∧
    (add_box_steps ⟨initialDB, initialDB⟩ "Garage" "" true).committed.logs = [] := by decide

end BoxInv
